import Mathlib

/-!
# Reconciliation adapters of the AWS provider

A shallow embedding of two resource adapters,

* `aws/resource_aws_appautoscaling_scheduled_action.go`
* `aws/resource_aws_media_store_cors_policy.go`

together with the properties their specification states about them.

Go strings are Lean `String`s; Go `error` values are `Option GoError` (`none` is `nil`);
the remote API client is an explicit stub value threaded through every operation, which
records each remote call it serves.
-/

namespace Aws

/-! ## Go runtime and library pieces the adapters use -/

/-- Go `error` values that the adapters produce or receive. -/
inductive GoError where
  /-- An `awserr.Error` with its code and message. -/
  | awsErr (code : String) (message : String)
  /-- The result of `fmt.Errorf`, with the formatted text. -/
  | errorf (text : String)
  /-- The error `resource.Retry` reports when the budget ran out before any attempt. -/
  | timeout
  deriving DecidableEq, Repr

/-- Go `strings.Index` on character lists: the part before the first occurrence of `sep` and the
part after it, `none` when `sep` does not occur. -/
def cutAt (sep : List Char) : List Char → Option (List Char × List Char)
  | [] => if sep = [] then some ([], []) else none
  | c :: cs =>
    if sep.isPrefixOf (c :: cs) then some ([], (c :: cs).drop sep.length)
    else
      match cutAt sep cs with
      | some (a, b) => some (c :: a, b)
      | none => none

/-- The loop of `strings.genSplit` for a non-empty separator: at most `n` pieces, the last of
which is the unsplit remainder. -/
def genSplit (sep : List Char) : Nat → List Char → List (List Char)
  | 0, _ => []
  | 1, s => [s]
  | n + 2, s =>
    match cutAt sep s with
    | none => [s]
    | some (a, b) => a :: genSplit sep (n + 1) b

/-- Go `strings.SplitN(s, sep, n)` for a non-empty `sep` and `n ≥ 0`. `n = 0` gives `nil`.
The adapters only split at the single ASCII character `-`, for which splitting by characters
and splitting by bytes agree. -/
def SplitN (s sep : String) (n : Nat) : List String :=
  (genSplit sep.toList n s.toList).map String.mk

/-! ## Scheduled-action adapter: identifier codec -/

/-- The error `decodeAppautoscalingScheduledActionID` builds with `fmt.Errorf` for an
identifier that does not split into three parts. -/
def MalformedIdentifier (id : String) : GoError :=
  GoError.errorf ("Appautoscaling ScheduledAction ID must be of the form " ++
    "<Name>-<ServiceNamespace>-<ResourceID>, was provided: " ++ id)

/-- Source function `decodeAppautoscalingScheduledActionID`: the four results `name`,
`serviceNamespace`, `resourceID`, `err` in this order. -/
def decodeAppautoscalingScheduledActionID (id : String) :
    String × String × String × Option GoError :=
  let parts := SplitN id "-" 2
  if parts.length ≠ 3 then
    ("", "", "", some (MalformedIdentifier id))
  else
    (parts.getD 0 "", parts.getD 1 "", parts.getD 2 "", none)

/-! ## Error classification and retry -/

/-- Go `applicationautoscaling.ErrCodeObjectNotFoundException` of the AWS SDK. -/
def ErrCodeObjectNotFoundException : String := "ObjectNotFoundException"

/-- Go `mediastore.ErrCodeContainerNotFoundException` of the AWS SDK. -/
def ErrCodeContainerNotFoundException : String := "ContainerNotFoundException"

/-- Go `mediastore.ErrCodeCorsPolicyNotFoundException` of the AWS SDK. -/
def ErrCodeCorsPolicyNotFoundException : String := "CorsPolicyNotFoundException"

/-- Go `strings.Contains(s, substr)`. -/
def Contains (s substr : String) : Bool :=
  (cutAt substr.toList s.toList).isSome

/-- Modelled from the spec: `isAWSErr` is declared outside the two adapter files. Remote
errors are classified by their error code at the call site: the error must be an AWS error
carrying exactly `code`, and its message must contain `message` (every call site passes the
empty filter, which any message contains). -/
def isAWSErr (err : GoError) (code message : String) : Bool :=
  match err with
  | GoError.awsErr c m => c == code && Contains m message
  | _ => false

/-- What a retried function hands back to `resource.Retry`: `resource.RetryableError(err)` or
`resource.NonRetryableError(err)`; `nil` is `none` at the use site. -/
inductive RetryError where
  | retryable (err : GoError)
  | nonRetryable (err : GoError)
  deriving DecidableEq, Repr

/-- The attempts of `resource.Retry`: `fuel` is how many attempts still fit in the time
budget, `last` the error of the latest attempt, which is what is reported when the budget is
used up. -/
def retryLoop {σ : Type} (f : σ → Option RetryError × σ) : Nat → GoError → σ → Option GoError × σ
  | 0, last, s => (some last, s)
  | fuel + 1, _, s =>
    match f s with
    | (none, s1) => (none, s1)
    | (some (RetryError.retryable err), s1) => retryLoop f fuel err s1
    | (some (RetryError.nonRetryable err), s1) => (some err, s1)

/-- Go `resource.Retry(timeout, f)`, with the wall-clock timeout abstracted to `attempts`, the
number of calls of `f` that fit in it. -/
def Retry {σ : Type} (attempts : Nat) (f : σ → Option RetryError × σ) (s : σ) :
    Option GoError × σ :=
  retryLoop f attempts GoError.timeout s

/-- Operations performed on a `schema.ResourceData`, in the order they happen. -/
inductive Write where
  /-- The call `d.SetId(v)`. -/
  | setId (v : String)
  /-- The call `d.Set(key, _)`. -/
  | set (key : String)
  deriving DecidableEq, Repr

/-! ## Scheduled-action adapter: data and remote API -/

/-- A `time.Time`, as seconds since the epoch. -/
abbrev Time := Int

/-- Go `time.Parse(awsAppautoscalingScheduleTimeLayout, _)` and
`t.Format(awsAppautoscalingScheduleTimeLayout)` of the Go standard library, taken as given.
A failed parse carries the text of its error. -/
structure TimeLayout where
  parse : String → Except String Time
  format : Time → String

/-- Go `applicationautoscaling.ScalableTargetAction`. -/
structure ScalableTargetAction where
  MaxCapacity : Option Int
  MinCapacity : Option Int
  deriving DecidableEq, Repr

/-- The element of the `scalable_target_action` list in the configuration. -/
structure TargetActionMap where
  max_capacity : Option Int
  min_capacity : Option Int
  deriving DecidableEq, Repr

/-- Go `applicationautoscaling.PutScheduledActionInput`. -/
structure PutScheduledActionInput where
  ScheduledActionName : String
  ServiceNamespace : String
  ResourceId : String
  ScalableDimension : Option String
  Schedule : Option String
  ScalableTargetAction : Option ScalableTargetAction
  StartTime : Option Time
  EndTime : Option Time
  deriving DecidableEq, Repr

/-- Go `applicationautoscaling.DescribeScheduledActionsInput`. -/
structure DescribeScheduledActionsInput where
  ScheduledActionNames : List String
  ServiceNamespace : String
  deriving DecidableEq, Repr

/-- Go `applicationautoscaling.DeleteScheduledActionInput`. -/
structure DeleteScheduledActionInput where
  ScheduledActionName : String
  ServiceNamespace : String
  ResourceId : String
  ScalableDimension : Option String
  deriving DecidableEq, Repr

/-- Go `applicationautoscaling.ScheduledAction` as returned by the remote API. The name is a
required member of the response; the other members are pointers that may be `nil`. -/
structure ScheduledAction where
  ScheduledActionName : String
  ServiceNamespace : Option String
  ResourceId : Option String
  ScalableDimension : Option String
  Schedule : Option String
  StartTime : Option Time
  EndTime : Option Time
  ScalableTargetAction : Option ScalableTargetAction
  ScheduledActionARN : Option String
  deriving DecidableEq, Repr

/-- One remote call served by the application-autoscaling client. -/
inductive AppautoscalingCall where
  | put (input : PutScheduledActionInput)
  | describe (input : DescribeScheduledActionsInput)
  | delete (input : DeleteScheduledActionInput)
  deriving DecidableEq, Repr

/-- Whether a recorded call is a `PutScheduledAction`. -/
def AppautoscalingCall.isPut : AppautoscalingCall → Bool
  | AppautoscalingCall.put _ => true
  | _ => false

/-- The application-autoscaling client (`meta.(*AWSClient).appautoscalingconn`) as a
deterministic stand-in: each operation answers from the calls served so far and its input,
and `calls` records every call in order. -/
structure AppautoscalingConn where
  putScheduledAction : List AppautoscalingCall → PutScheduledActionInput → Option GoError
  describeScheduledActions :
    List AppautoscalingCall → DescribeScheduledActionsInput → Except GoError (List ScheduledAction)
  deleteScheduledAction : List AppautoscalingCall → DeleteScheduledActionInput → Option GoError
  calls : List AppautoscalingCall

/-- Go `conn.PutScheduledAction(input)`. -/
def AppautoscalingConn.PutScheduledAction (conn : AppautoscalingConn)
    (input : PutScheduledActionInput) : Option GoError × AppautoscalingConn :=
  (conn.putScheduledAction conn.calls input,
    { conn with calls := conn.calls ++ [AppautoscalingCall.put input] })

/-- Go `conn.DescribeScheduledActions(input)`. -/
def AppautoscalingConn.DescribeScheduledActions (conn : AppautoscalingConn)
    (input : DescribeScheduledActionsInput) :
    Except GoError (List ScheduledAction) × AppautoscalingConn :=
  (conn.describeScheduledActions conn.calls input,
    { conn with calls := conn.calls ++ [AppautoscalingCall.describe input] })

/-- Go `conn.DeleteScheduledAction(input)`. -/
def AppautoscalingConn.DeleteScheduledAction (conn : AppautoscalingConn)
    (input : DeleteScheduledActionInput) : Option GoError × AppautoscalingConn :=
  (conn.deleteScheduledAction conn.calls input,
    { conn with calls := conn.calls ++ [AppautoscalingCall.delete input] })

/-- How many `PutScheduledAction` calls the client has served. -/
def AppautoscalingConn.putCalls (conn : AppautoscalingConn) : Nat :=
  conn.calls.countP AppautoscalingCall.isPut

/-- The `schema.ResourceData` of a scheduled action: the identifier, the configuration fields
of the schema (an unset string field reads as the empty string) and the record of the
operations performed on it. -/
structure ScheduledActionData where
  id : String
  name : String
  service_namespace : String
  resource_id : String
  scalable_dimension : String
  scalable_target_action : List TargetActionMap
  schedule : String
  start_time : String
  end_time : String
  arn : String
  writes : List Write
  deriving DecidableEq, Repr

/-- Go `d.SetId(v)`. -/
def ScheduledActionData.SetId (d : ScheduledActionData) (v : String) : ScheduledActionData :=
  { d with id := v, writes := d.writes ++ [Write.setId v] }

/-- Go `d.GetOk(key)` on a string field: the value, when it is set and not the zero value. -/
def GetOk (v : String) : Option String :=
  if v = "" then none else some v

/-! ## Scheduled-action adapter: operations

Every operation returns the Go `error` result, the resource data and the remote client as
they are when the operation returns. -/

/-- The part of `resourceAwsAppautoscalingScheduledActionRead` after a single, correctly named
record was found: every field is written back from the record. -/
def setFromAction (layout : TimeLayout) (d : ScheduledActionData) (action : ScheduledAction) :
    ScheduledActionData :=
  let d := { d with name := action.ScheduledActionName, writes := d.writes ++ [Write.set "name"] }
  let d := { d with service_namespace := action.ServiceNamespace.getD "",
                    writes := d.writes ++ [Write.set "service_namespace"] }
  let d := { d with resource_id := action.ResourceId.getD "",
                    writes := d.writes ++ [Write.set "resource_id"] }
  let d := { d with scalable_dimension := action.ScalableDimension.getD "",
                    writes := d.writes ++ [Write.set "scalable_dimension"] }
  let d := { d with schedule := action.Schedule.getD "",
                    writes := d.writes ++ [Write.set "schedule"] }
  let d := match action.StartTime with
    | some t => { d with start_time := layout.format t,
                         writes := d.writes ++ [Write.set "start_time"] }
    | none => d
  let d := match action.EndTime with
    | some t => { d with end_time := layout.format t,
                         writes := d.writes ++ [Write.set "end_time"] }
    | none => d
  let d := match action.ScalableTargetAction with
    | some v =>
      { d with scalable_target_action :=
                 [{ max_capacity := v.MaxCapacity, min_capacity := v.MinCapacity }],
               writes := d.writes ++ [Write.set "scalable_target_action"] }
    | none => d
  { d with arn := action.ScheduledActionARN.getD "", writes := d.writes ++ [Write.set "arn"] }

/-- Source function `resourceAwsAppautoscalingScheduledActionRead`. -/
def resourceAwsAppautoscalingScheduledActionRead (layout : TimeLayout)
    (d : ScheduledActionData) (conn : AppautoscalingConn) :
    Option GoError × ScheduledActionData × AppautoscalingConn :=
  let decoded := decodeAppautoscalingScheduledActionID d.id
  let name := decoded.1
  let serviceNamespace := decoded.2.1
  match decoded.2.2.2 with
  | some err => (some err, d, conn)
  | none =>
    let input : DescribeScheduledActionsInput :=
      { ScheduledActionNames := [name], ServiceNamespace := serviceNamespace }
    match conn.DescribeScheduledActions input with
    | (Except.error err, conn1) => (some err, d, conn1)
    | (Except.ok resp, conn1) =>
      match resp with
      | [] =>
        -- len(resp.ScheduledActions) < 1
        (none, d.SetId "", conn1)
      | _ :: _ :: _ =>
        -- len(resp.ScheduledActions) != 1
        (some (GoError.errorf ("Expected 1 scheduled action under " ++ name ++ ", found " ++
          toString resp.length)), d, conn1)
      | [action] =>
        if action.ScheduledActionName ≠ name then
          (some (GoError.errorf ("Scheduled Action (" ++ name ++ ") not found")), d, conn1)
        else
          (none, setFromAction layout d action, conn1)

/-- The time fields of `resourceAwsAppautoscalingScheduledActionPut`: a set `start_time` or
`end_time` is parsed with the fixed layout, and a parse failure is the error the operation
returns before any remote call. -/
def parseTimeField (layout : TimeLayout) (what : String) (v : String) :
    Except GoError (Option Time) :=
  match GetOk v with
  | none => Except.ok none
  | some text =>
    match layout.parse text with
    | Except.ok t => Except.ok (some t)
    | Except.error msg =>
      Except.error (GoError.errorf
        ("Error Parsing Appautoscaling Scheduled Action " ++ what ++ " Time: " ++ msg))

/-- The function `resourceAwsAppautoscalingScheduledActionPut` hands to `resource.Retry`: one
remote put, retryable exactly when it fails with the object-not-found code. -/
def putAttempt (input : PutScheduledActionInput) (conn : AppautoscalingConn) :
    Option RetryError × AppautoscalingConn :=
  match conn.PutScheduledAction input with
  | (some err, conn1) =>
    if isAWSErr err ErrCodeObjectNotFoundException "" then
      (some (RetryError.retryable err), conn1)
    else
      (some (RetryError.nonRetryable err), conn1)
  | (none, conn1) => (none, conn1)

/-- The request `resourceAwsAppautoscalingScheduledActionPut` builds from the configuration,
given the parsed time fields: the three key fields always, every optional field only when it
is set. -/
def putInput (d : ScheduledActionData) (startTime endTime : Option Time) :
    PutScheduledActionInput :=
  { ScheduledActionName := d.name
    ServiceNamespace := d.service_namespace
    ResourceId := d.resource_id
    ScalableDimension := GetOk d.scalable_dimension
    Schedule := GetOk d.schedule
    ScalableTargetAction :=
      match d.scalable_target_action with
      | [] => none
      | raw :: _ => some { MaxCapacity := raw.max_capacity, MinCapacity := raw.min_capacity }
    StartTime := startTime
    EndTime := endTime }

/-- Source function `resourceAwsAppautoscalingScheduledActionPut`. `attempts` is the number of
remote put attempts that fit in the five-minute budget of `resource.Retry`. -/
def resourceAwsAppautoscalingScheduledActionPut (layout : TimeLayout) (attempts : Nat)
    (d : ScheduledActionData) (conn : AppautoscalingConn) :
    Option GoError × ScheduledActionData × AppautoscalingConn :=
  match parseTimeField layout "Start" d.start_time with
  | Except.error err => (some err, d, conn)
  | Except.ok startTime =>
    match parseTimeField layout "End" d.end_time with
    | Except.error err => (some err, d, conn)
    | Except.ok endTime =>
      let input := putInput d startTime endTime
      match Retry attempts (putAttempt input) conn with
      | (some err, conn1) => (some err, d, conn1)
      | (none, conn1) =>
        let d1 := d.SetId (d.name ++ "-" ++ d.service_namespace ++ "-" ++ d.resource_id)
        resourceAwsAppautoscalingScheduledActionRead layout d1 conn1

/-- Source function `resourceAwsAppautoscalingScheduledActionDelete`. -/
def resourceAwsAppautoscalingScheduledActionDelete
    (d : ScheduledActionData) (conn : AppautoscalingConn) :
    Option GoError × ScheduledActionData × AppautoscalingConn :=
  let decoded := decodeAppautoscalingScheduledActionID d.id
  let name := decoded.1
  let serviceNamespace := decoded.2.1
  let resourceID := decoded.2.2.1
  match decoded.2.2.2 with
  | some err => (some err, d, conn)
  | none =>
    let input : DeleteScheduledActionInput :=
      { ScheduledActionName := name
        ServiceNamespace := serviceNamespace
        ResourceId := resourceID
        ScalableDimension := GetOk d.scalable_dimension }
    match conn.DeleteScheduledAction input with
    | (some err, conn1) =>
      if isAWSErr err ErrCodeObjectNotFoundException "" then
        (none, d.SetId "", conn1)
      else
        (some err, d, conn1)
    | (none, conn1) => (none, d.SetId "", conn1)

/-! ## Set-policy adapter (MediaStore CORS policy) -/

/-- Go `mediastore.CorsRule`, the wire form of one rule. A `nil` slice is the empty list. -/
structure CorsRule where
  AllowedHeaders : List String
  AllowedMethods : List String
  AllowedOrigins : List String
  ExposeHeaders : List String
  MaxAgeSeconds : Option Int
  deriving DecidableEq, Repr

/-- One element of `cors_policy` in the configuration, a `map[string]interface{}` over the
five keys of the schema: a key is in the map exactly when its field is `some`. A string set
is given by the list of its members. -/
structure CorsRuleMap where
  allowed_headers : Option (List String)
  allowed_methods : Option (List String)
  allowed_origins : Option (List String)
  expose_headers : Option (List String)
  max_age_seconds : Option Int
  deriving DecidableEq, Repr

/-- The keys present in a rule map, in schema order. -/
def CorsRuleMap.keys (m : CorsRuleMap) : List String :=
  (if m.allowed_headers.isSome then ["allowed_headers"] else []) ++
  (if m.allowed_methods.isSome then ["allowed_methods"] else []) ++
  (if m.allowed_origins.isSome then ["allowed_origins"] else []) ++
  (if m.expose_headers.isSome then ["expose_headers"] else []) ++
  (if m.max_age_seconds.isSome then ["max_age_seconds"] else [])

/-- Modelled from the spec: `expandStringSet` is declared outside the two adapter files. Each
string-set field is mapped on its own to the wire list of its members. -/
def expandStringSet (configured : List String) : List String :=
  configured.map fun v => v

/-- Modelled from the spec: `flattenStringList` is declared outside the two adapter files.
The inverse mapping, from the wire list back to the list of members. -/
def flattenStringList (list : List String) : List String :=
  list.map fun v => v

/-- The body of the loop of `expandMediaStoreCorsPolicy`, for one configured rule. -/
def expandMediaStoreCorsRule (data : CorsRuleMap) : CorsRule :=
  { AllowedHeaders := match data.allowed_headers with
      | some v => expandStringSet v
      | none => []
    AllowedMethods := match data.allowed_methods with
      | some v => expandStringSet v
      | none => []
    AllowedOrigins := match data.allowed_origins with
      | some v => expandStringSet v
      | none => []
    ExposeHeaders := match data.expose_headers with
      | some v => expandStringSet v
      | none => []
    MaxAgeSeconds := match data.max_age_seconds with
      | some v => some v
      | none => none }

/-- Source function `expandMediaStoreCorsPolicy`. -/
def expandMediaStoreCorsPolicy (configured : List CorsRuleMap) : List CorsRule :=
  configured.foldl (fun rules raw => rules ++ [expandMediaStoreCorsRule raw]) []

/-- The body of the loop of `flattenMediaStoreCorsPolicy`, for one wire rule. -/
def flattenMediaStoreCorsRule (rule : CorsRule) : CorsRuleMap :=
  { allowed_headers :=
      if rule.AllowedHeaders.length > 0 then some (flattenStringList rule.AllowedHeaders) else none
    allowed_methods :=
      if rule.AllowedMethods.length > 0 then some (flattenStringList rule.AllowedMethods) else none
    allowed_origins :=
      if rule.AllowedOrigins.length > 0 then some (flattenStringList rule.AllowedOrigins) else none
    expose_headers :=
      if rule.ExposeHeaders.length > 0 then some (flattenStringList rule.ExposeHeaders) else none
    max_age_seconds := match rule.MaxAgeSeconds with
      | some v => some v
      | none => none }

/-- Source function `flattenMediaStoreCorsPolicy`. -/
def flattenMediaStoreCorsPolicy (corsRules : List CorsRule) : List CorsRuleMap :=
  corsRules.foldl (fun result rule => result ++ [flattenMediaStoreCorsRule rule]) []

/-- Go `mediastore.PutCorsPolicyInput`. -/
structure PutCorsPolicyInput where
  ContainerName : String
  CorsPolicy : List CorsRule
  deriving DecidableEq, Repr

/-- One remote call served by the MediaStore client; get and delete carry the container name
of their input. -/
inductive MediaStoreCall where
  | put (input : PutCorsPolicyInput)
  | get (containerName : String)
  | delete (containerName : String)
  deriving DecidableEq, Repr

/-- The MediaStore client (`meta.(*AWSClient).mediastoreconn`) as a deterministic stand-in:
each operation answers from the calls served so far and its input, and `calls` records every
call in order. -/
structure MediaStoreConn where
  putCorsPolicy : List MediaStoreCall → PutCorsPolicyInput → Option GoError
  getCorsPolicy : List MediaStoreCall → String → Except GoError (List CorsRule)
  deleteCorsPolicy : List MediaStoreCall → String → Option GoError
  calls : List MediaStoreCall

/-- Go `conn.PutCorsPolicy(input)`. -/
def MediaStoreConn.PutCorsPolicy (conn : MediaStoreConn) (input : PutCorsPolicyInput) :
    Option GoError × MediaStoreConn :=
  (conn.putCorsPolicy conn.calls input,
    { conn with calls := conn.calls ++ [MediaStoreCall.put input] })

/-- Go `conn.GetCorsPolicy(input)`. -/
def MediaStoreConn.GetCorsPolicy (conn : MediaStoreConn) (containerName : String) :
    Except GoError (List CorsRule) × MediaStoreConn :=
  (conn.getCorsPolicy conn.calls containerName,
    { conn with calls := conn.calls ++ [MediaStoreCall.get containerName] })

/-- Go `conn.DeleteCorsPolicy(input)`. -/
def MediaStoreConn.DeleteCorsPolicy (conn : MediaStoreConn) (containerName : String) :
    Option GoError × MediaStoreConn :=
  (conn.deleteCorsPolicy conn.calls containerName,
    { conn with calls := conn.calls ++ [MediaStoreCall.delete containerName] })

/-- The `schema.ResourceData` of a MediaStore CORS policy. -/
structure CorsPolicyData where
  id : String
  container_name : String
  cors_policy : List CorsRuleMap
  writes : List Write
  deriving DecidableEq, Repr

/-- Go `d.SetId(v)`. -/
def CorsPolicyData.SetId (d : CorsPolicyData) (v : String) : CorsPolicyData :=
  { d with id := v, writes := d.writes ++ [Write.setId v] }

/-- Source function `resourceAwsMediaStoreCorsPolicyRead`. -/
def resourceAwsMediaStoreCorsPolicyRead (d : CorsPolicyData) (conn : MediaStoreConn) :
    Option GoError × CorsPolicyData × MediaStoreConn :=
  match conn.GetCorsPolicy d.id with
  | (Except.error err, conn1) =>
    if isAWSErr err ErrCodeContainerNotFoundException "" then
      (none, d.SetId "", conn1)
    else if isAWSErr err ErrCodeCorsPolicyNotFoundException "" then
      (none, d.SetId "", conn1)
    else
      (some err, d, conn1)
  | (Except.ok resp, conn1) =>
    let d1 := { d with container_name := d.id,
                       writes := d.writes ++ [Write.set "container_name"] }
    let d2 := { d1 with cors_policy := flattenMediaStoreCorsPolicy resp,
                        writes := d1.writes ++ [Write.set "cors_policy"] }
    (none, d2, conn1)

/-- Source function `resourceAwsMediaStoreCorsPolicyPut`. -/
def resourceAwsMediaStoreCorsPolicyPut (d : CorsPolicyData) (conn : MediaStoreConn) :
    Option GoError × CorsPolicyData × MediaStoreConn :=
  let input : PutCorsPolicyInput :=
    { ContainerName := d.container_name
      CorsPolicy := expandMediaStoreCorsPolicy d.cors_policy }
  match conn.PutCorsPolicy input with
  | (some err, conn1) => (some err, d, conn1)
  | (none, conn1) =>
    resourceAwsMediaStoreCorsPolicyRead (d.SetId d.container_name) conn1

/-- Source function `resourceAwsMediaStoreCorsPolicyDelete`. -/
def resourceAwsMediaStoreCorsPolicyDelete (d : CorsPolicyData) (conn : MediaStoreConn) :
    Option GoError × CorsPolicyData × MediaStoreConn :=
  match conn.DeleteCorsPolicy d.id with
  | (some err, conn1) =>
    if isAWSErr err ErrCodeContainerNotFoundException "" then
      (none, d, conn1)
    else if isAWSErr err ErrCodeCorsPolicyNotFoundException "" then
      (none, d, conn1)
    else
      (some err, d, conn1)
  | (none, conn1) => (none, d, conn1)

/-! ## Fixtures: concrete configurations and remote stand-ins -/

/-- A time layout whose parser rejects every text; the fixtures below set no time field. -/
def noTimes : TimeLayout :=
  { parse := fun _ => Except.error "cannot parse"
    format := fun _ => "" }

/-- The configuration of the end-to-end example: name `a`, namespace `ecs`, resource
`service/x`, schedule `at(2020-01-01T00:00:00)`, nothing else set, no identifier yet. -/
def exampleConfig : ScheduledActionData :=
  { id := ""
    name := "a"
    service_namespace := "ecs"
    resource_id := "service/x"
    scalable_dimension := ""
    scalable_target_action := []
    schedule := "at(2020-01-01T00:00:00)"
    start_time := ""
    end_time := ""
    arn := ""
    writes := [] }

/-- The resource of the end-to-end example once it carries its identifier. -/
def exampleResource : ScheduledActionData :=
  { exampleConfig with id := "a-ecs-service/x" }

/-- The remote record matching `exampleConfig`. -/
def exampleRecord : ScheduledAction :=
  { ScheduledActionName := "a"
    ServiceNamespace := some "ecs"
    ResourceId := some "service/x"
    ScalableDimension := none
    Schedule := some "at(2020-01-01T00:00:00)"
    StartTime := none
    EndTime := none
    ScalableTargetAction := none
    ScheduledActionARN := some "arn:aws:autoscaling:example" }

/-- A remote whose put and delete succeed and whose describe returns no scheduled action. -/
def emptyRemote : AppautoscalingConn :=
  { putScheduledAction := fun _ _ => none
    describeScheduledActions := fun _ _ => Except.ok []
    deleteScheduledAction := fun _ _ => none
    calls := [] }

/-- A remote whose delete fails with the object-not-found code. -/
def goneRemote : AppautoscalingConn :=
  { putScheduledAction := fun _ _ => none
    describeScheduledActions := fun _ _ => Except.ok []
    deleteScheduledAction := fun _ _ =>
      some (GoError.awsErr ErrCodeObjectNotFoundException "scheduled action not found")
    calls := [] }

/-- A remote whose put succeeds and whose describe returns exactly `exampleRecord`. -/
def exampleRemote : AppautoscalingConn :=
  { putScheduledAction := fun _ _ => none
    describeScheduledActions := fun _ _ => Except.ok [exampleRecord]
    deleteScheduledAction := fun _ _ => none
    calls := [] }

/-- A remote whose put fails with the object-not-found code on its first `k` calls and
succeeds afterwards; describe returns exactly `exampleRecord`. -/
def flakyRemote (k : Nat) : AppautoscalingConn :=
  { putScheduledAction := fun calls _ =>
      if calls.countP AppautoscalingCall.isPut < k then
        some (GoError.awsErr ErrCodeObjectNotFoundException "not yet visible")
      else none
    describeScheduledActions := fun _ _ => Except.ok [exampleRecord]
    deleteScheduledAction := fun _ _ => none
    calls := [] }

/-- The remote client of `flakyRemote k` after it has served `j` puts of `input`. -/
def flakyAfter (k : Nat) (input : PutScheduledActionInput) (j : Nat) : AppautoscalingConn :=
  { flakyRemote k with calls := List.replicate j (AppautoscalingCall.put input) }

/-- The request `Put` builds from `exampleConfig`. -/
def exampleInput : PutScheduledActionInput :=
  { ScheduledActionName := "a"
    ServiceNamespace := "ecs"
    ResourceId := "service/x"
    ScalableDimension := none
    Schedule := some "at(2020-01-01T00:00:00)"
    ScalableTargetAction := none
    StartTime := none
    EndTime := none }

/-- The two rules of the update step of the acceptance test: they differ only in
`max_age_seconds`. -/
def updateConfigRules : List CorsRuleMap :=
  [ { allowed_headers := some ["*"], allowed_methods := some ["GET"],
      allowed_origins := some ["*"], expose_headers := some ["*"],
      max_age_seconds := some 3000 },
    { allowed_headers := some ["*"], allowed_methods := some ["GET"],
      allowed_origins := some ["*"], expose_headers := some ["*"],
      max_age_seconds := some 1000 } ]

/-- A rule whose `allowed_headers` set is empty and whose other fields are not. -/
def ruleWithoutHeaders : CorsRuleMap :=
  { allowed_headers := some [], allowed_methods := some ["GET", "HEAD"],
    allowed_origins := some ["*"], expose_headers := some ["ETag"],
    max_age_seconds := some 3000 }

/-- A MediaStore remote whose get and delete fail with `err` and whose put succeeds. -/
def failingMediaStore (err : GoError) : MediaStoreConn :=
  { putCorsPolicy := fun _ _ => none
    getCorsPolicy := fun _ _ => Except.error err
    deleteCorsPolicy := fun _ _ => some err
    calls := [] }

/-- A CORS policy resource with identifier `tf_mediastore_test` and nothing read yet. -/
def exampleCorsResource : CorsPolicyData :=
  { id := "tf_mediastore_test", container_name := "", cors_policy := [], writes := [] }

/-! ## Predicates of the statements -/

/-- A string-set field that is present and has at least one member. -/
def nonEmptySet : Option (List String) → Bool
  | some (_ :: _) => true
  | _ => false

/-- One string-set field through expand and then flatten: absent or empty gives no key, a
non-empty set gives its members back. -/
def transcodedSet (field : Option (List String)) : Option (List String) :=
  if nonEmptySet field then field else none

/-- A rule map in which all four string-set fields are present and non-empty and
`max_age_seconds` is present. -/
def FullRule (r : CorsRuleMap) : Bool :=
  nonEmptySet r.allowed_headers && nonEmptySet r.allowed_methods &&
  nonEmptySet r.allowed_origins && nonEmptySet r.expose_headers && r.max_age_seconds.isSome

/-- Two string-set fields have the same members (an absent field has none). -/
def SameMembers (a b : Option (List String)) : Prop :=
  ∀ x : String, x ∈ a.getD [] ↔ x ∈ b.getD []

/-- The remote error is one of the two tolerated not-found classes of the set-policy adapter:
an AWS error whose code is container-not-found or CORS-policy-not-found. -/
def CorsNotFound (err : GoError) : Prop :=
  ∃ message : String,
    err = GoError.awsErr ErrCodeContainerNotFoundException message ∨
    err = GoError.awsErr ErrCodeCorsPolicyNotFoundException message

/-! ## Lemmas on the library pieces -/

theorem genSplit_length_le (sep : List Char) :
    ∀ (n : Nat) (s : List Char), (genSplit sep n s).length ≤ n
  | 0, _ => by simp [genSplit]
  | 1, _ => by simp [genSplit]
  | n + 2, s => by
    unfold genSplit
    cases h : cutAt sep s with
    | none => simp
    | some p =>
      obtain ⟨a, b⟩ := p
      simpa using genSplit_length_le sep (n + 1) b

theorem SplitN_length_le (s sep : String) (n : Nat) : (SplitN s sep n).length ≤ n := by
  unfold SplitN
  simpa using genSplit_length_le sep.toList n s.toList

theorem decode_malformed (id : String) :
    decodeAppautoscalingScheduledActionID id = ("", "", "", some (MalformedIdentifier id)) := by
  unfold decodeAppautoscalingScheduledActionID
  have h := SplitN_length_le id "-" 2
  have h3 : (SplitN id "-" 2).length ≠ 3 := by omega
  simp [h3]

theorem read_malformed (layout : TimeLayout) (d : ScheduledActionData)
    (conn : AppautoscalingConn) :
    resourceAwsAppautoscalingScheduledActionRead layout d conn
      = (some (MalformedIdentifier d.id), d, conn) := by
  simp [resourceAwsAppautoscalingScheduledActionRead, decode_malformed]

theorem delete_malformed (d : ScheduledActionData) (conn : AppautoscalingConn) :
    resourceAwsAppautoscalingScheduledActionDelete d conn
      = (some (MalformedIdentifier d.id), d, conn) := by
  simp [resourceAwsAppautoscalingScheduledActionDelete, decode_malformed]

/-! ## Identifier codec -/

/-- C1, evaluated on the code: the parts `a`, `ecs`, `service/x` contain no delimiter and
`Put` joins them to `a-ecs-service/x`, yet decoding that identifier returns the
malformed-identifier error with three empty parts instead of the three original parts: the
split yields the two pieces `a` and `ecs-service/x`. -/
theorem decode_of_encoded_example :
    '-' ∉ "a".toList ∧ '-' ∉ "ecs".toList ∧ '-' ∉ "service/x".toList ∧
    "a" ++ "-" ++ "ecs" ++ "-" ++ "service/x" = "a-ecs-service/x" ∧
    SplitN "a-ecs-service/x" "-" 2 = ["a", "ecs-service/x"] ∧
    decodeAppautoscalingScheduledActionID ("a" ++ "-" ++ "ecs" ++ "-" ++ "service/x")
      = ("", "", "", some (MalformedIdentifier "a-ecs-service/x")) ∧
    decodeAppautoscalingScheduledActionID ("a" ++ "-" ++ "ecs" ++ "-" ++ "service/x")
      ≠ ("a", "ecs", "service/x", none) := by
  decide

/-- C3: decoding `only-one-part` and decoding the empty string both return the
malformed-identifier error (the "must be of the form" error), with all three parts empty. -/
theorem decode_failure_examples :
    decodeAppautoscalingScheduledActionID "only-one-part"
      = ("", "", "", some (GoError.errorf
          ("Appautoscaling ScheduledAction ID must be of the form " ++
            "<Name>-<ServiceNamespace>-<ResourceID>, was provided: only-one-part"))) ∧
    decodeAppautoscalingScheduledActionID ""
      = ("", "", "", some (GoError.errorf
          ("Appautoscaling ScheduledAction ID must be of the form " ++
            "<Name>-<ServiceNamespace>-<ResourceID>, was provided: "))) := by
  decide

/-- C10: for every identifier the split is bounded to at most two parts, so the decoder
returns the malformed-identifier error with all three parts empty; scheduled-action Read and
Delete therefore return that error on every resource, with the resource data (identifier
included) and the remote client (no call recorded) exactly as they were. -/
theorem decode_never_succeeds (id : String) (layout : TimeLayout) (d : ScheduledActionData)
    (conn : AppautoscalingConn) :
    (SplitN id "-" 2).length ≤ 2 ∧
    decodeAppautoscalingScheduledActionID id = ("", "", "", some (MalformedIdentifier id)) ∧
    resourceAwsAppautoscalingScheduledActionRead layout d conn
      = (some (MalformedIdentifier d.id), d, conn) ∧
    resourceAwsAppautoscalingScheduledActionDelete d conn
      = (some (MalformedIdentifier d.id), d, conn) :=
  ⟨SplitN_length_le id "-" 2, decode_malformed id, read_malformed layout d conn,
    delete_malformed d conn⟩

/-! ## Scheduled-action Read and Delete -/

/-- C4, evaluated on the code: on the identifier `a-ecs-service/x`, against a remote whose
describe returns zero scheduled actions, Read returns the malformed-identifier error instead
of success, leaves the identifier in place instead of clearing it, and never queries the
remote. -/
theorem read_absence_example :
    (emptyRemote.describeScheduledActions [] ⟨["a"], "ecs"⟩ = Except.ok []) ∧
    (resourceAwsAppautoscalingScheduledActionRead noTimes exampleResource emptyRemote).1
      = some (MalformedIdentifier "a-ecs-service/x") ∧
    (resourceAwsAppautoscalingScheduledActionRead noTimes exampleResource emptyRemote).2.1.id
      = "a-ecs-service/x" ∧
    (resourceAwsAppautoscalingScheduledActionRead noTimes exampleResource emptyRemote).2.2.calls
      = [] := by
  refine ⟨rfl, ?_, ?_, ?_⟩ <;> rw [read_malformed] <;> rfl

/-- C5, evaluated on the code: on the identifier `a-ecs-service/x`, against a remote whose
delete fails with the object-not-found code, scheduled-action Delete returns the
malformed-identifier error instead of success, keeps the identifier and never calls the
remote delete. -/
theorem delete_idempotence_example :
    isAWSErr (GoError.awsErr ErrCodeObjectNotFoundException "scheduled action not found")
      ErrCodeObjectNotFoundException "" = true ∧
    (resourceAwsAppautoscalingScheduledActionDelete exampleResource goneRemote).1
      = some (MalformedIdentifier "a-ecs-service/x") ∧
    (resourceAwsAppautoscalingScheduledActionDelete exampleResource goneRemote).2.1.id
      = "a-ecs-service/x" ∧
    (resourceAwsAppautoscalingScheduledActionDelete exampleResource goneRemote).2.2.calls
      = [] := by
  refine ⟨by decide, ?_, ?_, ?_⟩ <;> rw [delete_malformed] <;> rfl

/-! ## Scheduled-action Put -/

theorem flakyAfter_retry (k : Nat) (input : PutScheduledActionInput) :
    ∀ (fuel j : Nat) (last : GoError), j ≤ k → k - j < fuel →
      retryLoop (putAttempt input) fuel last (flakyAfter k input j)
        = (none, flakyAfter k input (k + 1))
  | 0, _, _, _, h => by omega
  | fuel + 1, j, last, hj, hf => by
    have hcount : List.countP AppautoscalingCall.isPut
        (List.replicate j (AppautoscalingCall.put input)) = j := by
      simp [List.countP_replicate, AppautoscalingCall.isPut]
    have hnext : List.replicate j (AppautoscalingCall.put input) ++ [AppautoscalingCall.put input]
        = List.replicate (j + 1) (AppautoscalingCall.put input) :=
      (List.replicate_succ' j _).symm
    have hclass : isAWSErr (GoError.awsErr ErrCodeObjectNotFoundException "not yet visible")
        ErrCodeObjectNotFoundException "" = true := by decide
    by_cases hlt : j < k
    · have ih := flakyAfter_retry k input fuel (j + 1)
        (GoError.awsErr ErrCodeObjectNotFoundException "not yet visible") (by omega) (by omega)
      simp only [flakyAfter] at ih ⊢
      simp only [retryLoop, putAttempt, AppautoscalingConn.PutScheduledAction, flakyRemote,
        hcount, hlt, if_true, hclass, hnext]
      exact ih
    · have hjk : j = k := by omega
      subst hjk
      simp only [flakyAfter]
      simp only [retryLoop, putAttempt, AppautoscalingConn.PutScheduledAction, flakyRemote,
        hcount, Nat.lt_irrefl, if_false, hnext]

/-- C7, evaluated on the code: `Put` of the example configuration, against a remote whose put
succeeds and whose describe returns exactly the matching record, stores the identifier
`a-ecs-service/x` built from the configuration, but returns the malformed-identifier error
instead of success; the remote served the put and no describe, and no field was written back.
A subsequent Read on that identifier returns the same error and changes nothing. -/
theorem put_then_read_example :
    (resourceAwsAppautoscalingScheduledActionPut noTimes 1 exampleConfig exampleRemote).1
      = some (MalformedIdentifier "a-ecs-service/x") ∧
    (resourceAwsAppautoscalingScheduledActionPut noTimes 1 exampleConfig exampleRemote).2.1
      = { exampleConfig with id := "a-ecs-service/x", writes := [Write.setId "a-ecs-service/x"] } ∧
    (resourceAwsAppautoscalingScheduledActionPut noTimes 1 exampleConfig exampleRemote).2.2.calls
      = [AppautoscalingCall.put exampleInput] ∧
    (resourceAwsAppautoscalingScheduledActionRead noTimes
        (resourceAwsAppautoscalingScheduledActionPut noTimes 1 exampleConfig exampleRemote).2.1
        (resourceAwsAppautoscalingScheduledActionPut noTimes 1 exampleConfig exampleRemote).2.2).1
      = some (MalformedIdentifier "a-ecs-service/x") ∧
    (resourceAwsAppautoscalingScheduledActionRead noTimes
        (resourceAwsAppautoscalingScheduledActionPut noTimes 1 exampleConfig exampleRemote).2.1
        (resourceAwsAppautoscalingScheduledActionPut noTimes 1 exampleConfig exampleRemote).2.2).2.1.schedule
      = "at(2020-01-01T00:00:00)" := by
  decide

/-- C8, evaluated on the code: against a remote whose put fails with the object-not-found code
`k` times and then succeeds, with room for at least `k + 1` attempts in the budget, `Put`
invokes the remote put exactly `k + 1` times and nothing else, stores the identifier, and
then returns the malformed-identifier error instead of success. -/
theorem put_retry_flaky (layout : TimeLayout) (k extra : Nat) :
    (resourceAwsAppautoscalingScheduledActionPut layout (k + 1 + extra) exampleConfig
        (flakyRemote k)).1 = some (MalformedIdentifier "a-ecs-service/x") ∧
    (resourceAwsAppautoscalingScheduledActionPut layout (k + 1 + extra) exampleConfig
        (flakyRemote k)).2.1.id = "a-ecs-service/x" ∧
    (resourceAwsAppautoscalingScheduledActionPut layout (k + 1 + extra) exampleConfig
        (flakyRemote k)).2.2.calls = List.replicate (k + 1) (AppautoscalingCall.put exampleInput) ∧
    (resourceAwsAppautoscalingScheduledActionPut layout (k + 1 + extra) exampleConfig
        (flakyRemote k)).2.2.putCalls = k + 1 := by
  have hinput : putInput exampleConfig none none = exampleInput := by decide
  have hstart : parseTimeField layout "Start" exampleConfig.start_time = Except.ok none := rfl
  have hend : parseTimeField layout "End" exampleConfig.end_time = Except.ok none := rfl
  have hretry := flakyAfter_retry k exampleInput (k + 1 + extra) 0 GoError.timeout
    (Nat.zero_le k) (by omega)
  have hzero : flakyAfter k exampleInput 0 = flakyRemote k := rfl
  rw [hzero] at hretry
  have hput : resourceAwsAppautoscalingScheduledActionPut layout (k + 1 + extra) exampleConfig
      (flakyRemote k)
      = (some (MalformedIdentifier "a-ecs-service/x"),
          exampleConfig.SetId "a-ecs-service/x", flakyAfter k exampleInput (k + 1)) := by
    simp only [resourceAwsAppautoscalingScheduledActionPut, hstart, hend, hinput, Retry, hretry,
      read_malformed]
    rfl
  rw [hput]
  refine ⟨rfl, rfl, rfl, ?_⟩
  simp [AppautoscalingConn.putCalls, flakyAfter, List.countP_replicate, AppautoscalingCall.isPut]

/-- The rest of the retry contract of `Put`, which the code keeps: when the first remote put
fails with an error that is not the object-not-found code, that error is returned, the remote
put was invoked exactly once and the resource data is untouched. -/
theorem put_nonretryable (layout : TimeLayout) (attempts : Nat) (d : ScheduledActionData)
    (conn : AppautoscalingConn) (startTime endTime : Option Time) (err : GoError)
    (hs : parseTimeField layout "Start" d.start_time = Except.ok startTime)
    (he : parseTimeField layout "End" d.end_time = Except.ok endTime)
    (hfail : conn.putScheduledAction conn.calls (putInput d startTime endTime) = some err)
    (hcode : isAWSErr err ErrCodeObjectNotFoundException "" = false) :
    resourceAwsAppautoscalingScheduledActionPut layout (attempts + 1) d conn
      = (some err, d,
          { conn with calls :=
              conn.calls ++ [AppautoscalingCall.put (putInput d startTime endTime)] }) := by
  simp [resourceAwsAppautoscalingScheduledActionPut, hs, he, Retry, retryLoop, putAttempt,
    AppautoscalingConn.PutScheduledAction, hfail, hcode]

/-! ## Error classification -/

theorem cutAt_nil_isSome : ∀ l : List Char, (cutAt [] l).isSome = true
  | [] => by simp [cutAt]
  | c :: cs => by simp [cutAt, List.isPrefixOf]

theorem Contains_empty (m : String) : Contains m "" = true := by
  unfold Contains
  exact cutAt_nil_isSome m.toList

theorem isAWSErr_iff (err : GoError) (code : String) :
    isAWSErr err code "" = true ↔ ∃ message, err = GoError.awsErr code message := by
  cases err with
  | awsErr c m =>
    simp only [isAWSErr, Contains_empty, Bool.and_true, beq_iff_eq]
    constructor
    · intro h
      exact ⟨m, by rw [h]⟩
    · rintro ⟨m1, h⟩
      injection h with h1 _
  | errorf t => simp [isAWSErr]
  | timeout => simp [isAWSErr]

theorem corsNotFound_iff (err : GoError) :
    CorsNotFound err ↔
      (isAWSErr err ErrCodeContainerNotFoundException "" = true ∨
        isAWSErr err ErrCodeCorsPolicyNotFoundException "" = true) := by
  rw [isAWSErr_iff, isAWSErr_iff]
  unfold CorsNotFound
  constructor
  · rintro ⟨m, h | h⟩
    · exact Or.inl ⟨m, h⟩
    · exact Or.inr ⟨m, h⟩
  · rintro (⟨m, h⟩ | ⟨m, h⟩)
    · exact ⟨m, Or.inl h⟩
    · exact ⟨m, Or.inr h⟩

/-! ## Set-policy Read and Delete -/

theorem cors_read_notFound (d : CorsPolicyData) (conn : MediaStoreConn) (err : GoError)
    (hget : conn.getCorsPolicy conn.calls d.id = Except.error err) (hnf : CorsNotFound err) :
    resourceAwsMediaStoreCorsPolicyRead d conn
      = (none, { d with id := "", writes := d.writes ++ [Write.setId ""] },
          { conn with calls := conn.calls ++ [MediaStoreCall.get d.id] }) := by
  rw [corsNotFound_iff] at hnf
  unfold resourceAwsMediaStoreCorsPolicyRead MediaStoreConn.GetCorsPolicy
  rw [hget]
  rcases hnf with h | h
  · simp [h, CorsPolicyData.SetId]
  · by_cases h1 : isAWSErr err ErrCodeContainerNotFoundException "" = true
    · simp [h1, CorsPolicyData.SetId]
    · simp [h1, h, CorsPolicyData.SetId]

theorem cors_read_otherError (d : CorsPolicyData) (conn : MediaStoreConn) (err : GoError)
    (hget : conn.getCorsPolicy conn.calls d.id = Except.error err) (hnf : ¬ CorsNotFound err) :
    resourceAwsMediaStoreCorsPolicyRead d conn
      = (some err, d, { conn with calls := conn.calls ++ [MediaStoreCall.get d.id] }) := by
  rw [corsNotFound_iff, not_or] at hnf
  unfold resourceAwsMediaStoreCorsPolicyRead MediaStoreConn.GetCorsPolicy
  rw [hget]
  simp [hnf.1, hnf.2]

theorem cors_read_ok (d : CorsPolicyData) (conn : MediaStoreConn) (resp : List CorsRule)
    (hget : conn.getCorsPolicy conn.calls d.id = Except.ok resp) :
    resourceAwsMediaStoreCorsPolicyRead d conn
      = (none,
          { d with container_name := d.id, cors_policy := flattenMediaStoreCorsPolicy resp,
                   writes := d.writes ++ [Write.set "container_name"] ++ [Write.set "cors_policy"] },
          { conn with calls := conn.calls ++ [MediaStoreCall.get d.id] }) := by
  unfold resourceAwsMediaStoreCorsPolicyRead MediaStoreConn.GetCorsPolicy
  rw [hget]

/-- C6: set-policy Read returns no error and clears the identifier exactly when the remote get
fails with one of the two not-found codes, and then writes no configuration field; for every
other remote error it returns that error and leaves the resource data as it was; and when the
remote get succeeds it returns no error, keeps the identifier, sets `container_name` to the
identifier and `cors_policy` to the flattened response. -/
theorem cors_read_tolerance (d : CorsPolicyData) (conn : MediaStoreConn) :
    (((resourceAwsMediaStoreCorsPolicyRead d conn).1 = none ∧
        (resourceAwsMediaStoreCorsPolicyRead d conn).2.1.writes = d.writes ++ [Write.setId ""]) ↔
      ∃ err, conn.getCorsPolicy conn.calls d.id = Except.error err ∧ CorsNotFound err) ∧
    (∀ err, conn.getCorsPolicy conn.calls d.id = Except.error err → CorsNotFound err →
      (resourceAwsMediaStoreCorsPolicyRead d conn).1 = none ∧
      (resourceAwsMediaStoreCorsPolicyRead d conn).2.1
        = { d with id := "", writes := d.writes ++ [Write.setId ""] }) ∧
    (∀ err, conn.getCorsPolicy conn.calls d.id = Except.error err → ¬ CorsNotFound err →
      (resourceAwsMediaStoreCorsPolicyRead d conn).1 = some err ∧
      (resourceAwsMediaStoreCorsPolicyRead d conn).2.1 = d) ∧
    (∀ resp, conn.getCorsPolicy conn.calls d.id = Except.ok resp →
      (resourceAwsMediaStoreCorsPolicyRead d conn).1 = none ∧
      (resourceAwsMediaStoreCorsPolicyRead d conn).2.1
        = { d with container_name := d.id, cors_policy := flattenMediaStoreCorsPolicy resp,
                   writes := d.writes ++ [Write.set "container_name", Write.set "cors_policy"] }) := by
  refine ⟨?_, ?_, ?_, ?_⟩
  · constructor
    · rintro ⟨herr, hw⟩
      cases hget : conn.getCorsPolicy conn.calls d.id with
      | error err =>
        refine ⟨err, rfl, ?_⟩
        by_contra hnf
        rw [cors_read_otherError d conn err hget hnf] at herr
        simp at herr
      | ok resp =>
        rw [cors_read_ok d conn resp hget] at hw
        simp at hw
    · rintro ⟨err, hget, hnf⟩
      rw [cors_read_notFound d conn err hget hnf]
      exact ⟨rfl, rfl⟩
  · intro err hget hnf
    rw [cors_read_notFound d conn err hget hnf]
    exact ⟨rfl, rfl⟩
  · intro err hget hnf
    rw [cors_read_otherError d conn err hget hnf]
    exact ⟨rfl, rfl⟩
  · intro resp hget
    rw [cors_read_ok d conn resp hget]
    simp

/-- The set-policy half of delete idempotence, which the code keeps: when the remote delete
fails with one of the two not-found codes, set-policy Delete returns no error. -/
theorem cors_delete_notFound (d : CorsPolicyData) (conn : MediaStoreConn) (err : GoError)
    (hdel : conn.deleteCorsPolicy conn.calls d.id = some err) (hnf : CorsNotFound err) :
    (resourceAwsMediaStoreCorsPolicyDelete d conn).1 = none := by
  rw [corsNotFound_iff] at hnf
  unfold resourceAwsMediaStoreCorsPolicyDelete MediaStoreConn.DeleteCorsPolicy
  rw [hdel]
  rcases hnf with h | h
  · simp [h]
  · by_cases h1 : isAWSErr err ErrCodeContainerNotFoundException "" = true
    · simp [h1]
    · simp [h1, h]

/-- A witness of C6: against a remote whose get fails with the container-not-found code, Read
of the example resource returns no error and only clears the identifier. -/
theorem cors_read_tolerance_witness :
    (resourceAwsMediaStoreCorsPolicyRead exampleCorsResource
        (failingMediaStore (GoError.awsErr ErrCodeContainerNotFoundException "gone"))).1 = none ∧
    (resourceAwsMediaStoreCorsPolicyRead exampleCorsResource
        (failingMediaStore (GoError.awsErr ErrCodeContainerNotFoundException "gone"))).2.1
      = { exampleCorsResource with id := "", writes := [Write.setId ""] } :=
  (cors_read_tolerance exampleCorsResource
      (failingMediaStore (GoError.awsErr ErrCodeContainerNotFoundException "gone"))).2.1
    (GoError.awsErr ErrCodeContainerNotFoundException "gone") rfl ⟨"gone", Or.inl rfl⟩

/-! ## Collection transcoder -/

theorem foldl_snoc_eq_map {α β : Type} (f : α → β) :
    ∀ (l : List α) (init : List β),
      l.foldl (fun acc x => acc ++ [f x]) init = init ++ l.map f
  | [], init => by simp
  | x :: xs, init => by
    simp [List.foldl_cons, foldl_snoc_eq_map f xs (init ++ [f x])]

theorem expand_eq_map (configured : List CorsRuleMap) :
    expandMediaStoreCorsPolicy configured = configured.map expandMediaStoreCorsRule := by
  simp [expandMediaStoreCorsPolicy, foldl_snoc_eq_map]

theorem flatten_eq_map (corsRules : List CorsRule) :
    flattenMediaStoreCorsPolicy corsRules = corsRules.map flattenMediaStoreCorsRule := by
  simp [flattenMediaStoreCorsPolicy, foldl_snoc_eq_map]

theorem flatten_expand_eq_map (rules : List CorsRuleMap) :
    flattenMediaStoreCorsPolicy (expandMediaStoreCorsPolicy rules)
      = rules.map fun r => flattenMediaStoreCorsRule (expandMediaStoreCorsRule r) := by
  simp [expand_eq_map, flatten_eq_map]

theorem flatten_expand_rule (r : CorsRuleMap) :
    flattenMediaStoreCorsRule (expandMediaStoreCorsRule r)
      = { allowed_headers := transcodedSet r.allowed_headers
          allowed_methods := transcodedSet r.allowed_methods
          allowed_origins := transcodedSet r.allowed_origins
          expose_headers := transcodedSet r.expose_headers
          max_age_seconds := r.max_age_seconds } := by
  obtain ⟨h, m, o, e, a⟩ := r
  have key : ∀ f : Option (List String),
      (if (match f with
            | some v => expandStringSet v
            | none => []).length > 0
        then some (flattenStringList (match f with
            | some v => expandStringSet v
            | none => []))
        else none) = transcodedSet f := by
    intro f
    rcases f with _ | ⟨_ | ⟨x, xs⟩⟩ <;>
      simp [transcodedSet, nonEmptySet, expandStringSet, flattenStringList]
  simp only [flattenMediaStoreCorsRule, expandMediaStoreCorsRule, key]
  cases a <;> rfl

theorem flatten_expand_full (r : CorsRuleMap) (h : FullRule r = true) :
    flattenMediaStoreCorsRule (expandMediaStoreCorsRule r) = r := by
  rw [flatten_expand_rule]
  obtain ⟨hd, m, o, e, a⟩ := r
  simp only [FullRule, Bool.and_eq_true] at h
  obtain ⟨⟨⟨⟨h1, h2⟩, h3⟩, h4⟩, _⟩ := h
  simp [transcodedSet, h1, h2, h3, h4]

/-- C2: for every list of rule maps in which all four string-set fields are present and
non-empty and `max_age_seconds` is present, flatten after expand has one entry per input
rule, and the entry at each position has the same keys, the same `max_age_seconds` and, for
each string-set field, the same members as the input rule at that position. -/
theorem transcoder_round_trip (rules : List CorsRuleMap)
    (hfull : ∀ r ∈ rules, FullRule r = true) :
    (flattenMediaStoreCorsPolicy (expandMediaStoreCorsPolicy rules)).length = rules.length ∧
    ∀ (i : Nat) (r : CorsRuleMap), rules[i]? = some r →
      ∃ o, (flattenMediaStoreCorsPolicy (expandMediaStoreCorsPolicy rules))[i]? = some o ∧
        o.keys = r.keys ∧
        o.max_age_seconds = r.max_age_seconds ∧
        SameMembers o.allowed_headers r.allowed_headers ∧
        SameMembers o.allowed_methods r.allowed_methods ∧
        SameMembers o.allowed_origins r.allowed_origins ∧
        SameMembers o.expose_headers r.expose_headers := by
  rw [flatten_expand_eq_map]
  refine ⟨by simp, ?_⟩
  intro i r hi
  have hmem : r ∈ rules := List.getElem?_mem hi
  refine ⟨r, ?_, rfl, rfl, fun _ => Iff.rfl, fun _ => Iff.rfl, fun _ => Iff.rfl,
    fun _ => Iff.rfl⟩
  rw [List.getElem?_map, hi]
  simp [flatten_expand_full r (hfull r hmem)]

/-- A witness of C2: the two rules of the update step of the acceptance test, which differ
only in `max_age_seconds`, come back as two entries. -/
theorem transcoder_round_trip_witness :
    (∀ r ∈ updateConfigRules, FullRule r = true) ∧
    (flattenMediaStoreCorsPolicy (expandMediaStoreCorsPolicy updateConfigRules)).length
      = updateConfigRules.length ∧
    ∀ (i : Nat) (r : CorsRuleMap), updateConfigRules[i]? = some r →
      ∃ o, (flattenMediaStoreCorsPolicy (expandMediaStoreCorsPolicy updateConfigRules))[i]?
          = some o ∧
        o.keys = r.keys ∧
        o.max_age_seconds = r.max_age_seconds ∧
        SameMembers o.allowed_headers r.allowed_headers ∧
        SameMembers o.allowed_methods r.allowed_methods ∧
        SameMembers o.allowed_origins r.allowed_origins ∧
        SameMembers o.expose_headers r.expose_headers :=
  ⟨by decide, transcoder_round_trip updateConfigRules (by decide)⟩

/-- C9: for every rule map, flatten after expand of that single rule gives one entry, in which
each string-set field that is empty (or absent) in the rule has no key, each string-set field
that is non-empty in the rule is present with the same members, and `max_age_seconds` is as
in the rule. -/
theorem transcoder_omission (r : CorsRuleMap) :
    ∃ m, flattenMediaStoreCorsPolicy (expandMediaStoreCorsPolicy [r]) = [m] ∧
      (nonEmptySet r.allowed_headers = false → m.allowed_headers = none) ∧
      (nonEmptySet r.allowed_methods = false → m.allowed_methods = none) ∧
      (nonEmptySet r.allowed_origins = false → m.allowed_origins = none) ∧
      (nonEmptySet r.expose_headers = false → m.expose_headers = none) ∧
      (nonEmptySet r.allowed_headers = true →
        m.allowed_headers.isSome = true ∧ SameMembers m.allowed_headers r.allowed_headers) ∧
      (nonEmptySet r.allowed_methods = true →
        m.allowed_methods.isSome = true ∧ SameMembers m.allowed_methods r.allowed_methods) ∧
      (nonEmptySet r.allowed_origins = true →
        m.allowed_origins.isSome = true ∧ SameMembers m.allowed_origins r.allowed_origins) ∧
      (nonEmptySet r.expose_headers = true →
        m.expose_headers.isSome = true ∧ SameMembers m.expose_headers r.expose_headers) ∧
      m.max_age_seconds = r.max_age_seconds := by
  have hset : ∀ f : Option (List String),
      (nonEmptySet f = false → transcodedSet f = none) ∧
      (nonEmptySet f = true →
        (transcodedSet f).isSome = true ∧ SameMembers (transcodedSet f) f) := by
    intro f
    rcases f with _ | ⟨_ | ⟨x, xs⟩⟩ <;> simp [transcodedSet, nonEmptySet, SameMembers]
  refine ⟨flattenMediaStoreCorsRule (expandMediaStoreCorsRule r), ?_, ?_⟩
  · rw [flatten_expand_eq_map]
    rfl
  · rw [flatten_expand_rule]
    exact ⟨(hset _).1, (hset _).1, (hset _).1, (hset _).1, (hset _).2, (hset _).2, (hset _).2,
      (hset _).2, rfl⟩

/-- A witness of C9: the rule with an empty `allowed_headers` set comes back without the
`allowed_headers` key and with its three other sets and its `max_age_seconds` in place. -/
theorem transcoder_omission_witness :
    nonEmptySet ruleWithoutHeaders.allowed_headers = false ∧
    flattenMediaStoreCorsPolicy (expandMediaStoreCorsPolicy [ruleWithoutHeaders])
      = [{ ruleWithoutHeaders with allowed_headers := none }] ∧
    ∃ m, flattenMediaStoreCorsPolicy (expandMediaStoreCorsPolicy [ruleWithoutHeaders]) = [m] ∧
      m.allowed_headers = none :=
  ⟨by decide, by decide,
    (transcoder_omission ruleWithoutHeaders).imp fun _ h => ⟨h.1, h.2.1 (by decide)⟩⟩

end Aws
